import Mathlib

/-!
Shallow embedding of the batching subsystem of the go-fcm client
(package `fcm`): multicast fan-out, batch request assembly, multipart
envelope building, and multipart response decoding, together with the
surrounding orchestration in `sendBatch`.

Byte sequences are modelled as `List Char` (one `Char` per byte; all the
protocol syntax involved is ASCII).  Go's `error` results become
`Except String`; calls to the external collaborators (message validator,
token provider, HTTP transport) are passed in explicitly, and the side
effects of one batch call are recorded as an explicit event trace.
-/

namespace GoFcm

/-- `maxMessages` constant from the source. -/
def maxMessages : Nat := 500

/-- `multipartBoundary` constant from the source. -/
def multipartBoundary : String := "__END_OF_PART__"

/-- `apiFormatVersionHeader` constant from the source. -/
def apiFormatVersionHeader : String := "X-GOOG-API-FORMAT-VERSION"

/-- `apiFormatVersion` constant from the source. -/
def apiFormatVersion : String := "2"

/-- Decimal digit characters of a natural number, most significant first,
by fuelled recursion (any fuel above the digit count gives the same
answer).  Models Go's `fmt` rendering of a non-negative integer with
`%d`. -/
def natCharsCore : Nat → Nat → List Char
  | 0, _ => []
  | fuel + 1, n =>
    if n < 10 then [Char.ofNat (48 + n)]
    else natCharsCore fuel (n / 10) ++ [Char.ofNat (48 + n % 10)]

/-- Decimal digit characters of a natural number. -/
def natChars (n : Nat) : List Char := natCharsCore (n + 1) n

/-- Decimal rendering of a natural number as a string (Go `%d`). -/
def natStr (n : Nat) : String := String.mk (natChars n)

/-- Parse a non-empty all-digit character list as a decimal natural number. -/
def parseNat (cs : List Char) : Option Nat :=
  if cs ≠ [] ∧ cs.all (fun c => c.isDigit) then
    some (cs.foldl (fun a c => a * 10 + (c.toNat - 48)) 0)
  else none

theorem char_digit_toNat : ∀ k < 10, (Char.ofNat (48 + k)).toNat = 48 + k := by decide

theorem char_digit_isDigit : ∀ k < 10, (Char.ofNat (48 + k)).isDigit = true := by decide

theorem natCharsCore_spec : ∀ (fuel n : Nat), n < fuel →
    natCharsCore fuel n ≠ [] ∧
    (natCharsCore fuel n).all (fun c => c.isDigit) = true ∧
    (natCharsCore fuel n).foldl (fun a c => a * 10 + (c.toNat - 48)) 0 = n := by
  intro fuel
  induction fuel with
  | zero => intro n h; omega
  | succ f ih =>
    intro n h
    by_cases h10 : n < 10
    · simp [natCharsCore, h10, char_digit_toNat n h10, char_digit_isDigit n h10]
    · have hd : n / 10 < f := by
        have hlt : n / 10 < n := Nat.div_lt_self (by omega) (by omega)
        omega
      have hm : n % 10 < 10 := Nat.mod_lt _ (by omega)
      obtain ⟨h1, h2, h3⟩ := ih (n / 10) hd
      refine ⟨by simp [natCharsCore, h10], ?_, ?_⟩
      · simp [natCharsCore, h10, h2, char_digit_isDigit (n % 10) hm]
      · simp [natCharsCore, h10, List.foldl_append, h3, char_digit_toNat (n % 10) hm]
        omega

theorem natChars_ne_nil (n : Nat) : natChars n ≠ [] :=
  (natCharsCore_spec (n + 1) n (by omega)).1

/-- Decimal printing followed by decimal parsing is the identity. -/
theorem parseNat_natChars (n : Nat) : parseNat (natChars n) = some n := by
  obtain ⟨h1, h2, h3⟩ := natCharsCore_spec (n + 1) n (by omega)
  unfold natChars parseNat
  simp [h1, h2, h3]

/-- Modelled from the spec: the message payload schema (the `Message` type
lives in a file that is not part of the covered source, and the spec
declares the payload schema a non-goal).  The nested payload configurations
are kept opaque. -/
structure PayloadBlob where
  raw : String
deriving DecidableEq, Repr

/-- Modelled from the spec: only the `Message` fields that the covered
source reads or writes (`Token` plus the five payload fields copied by
`toMessages`) are modelled; the message schema itself is out of scope. -/
structure Message where
  Token : String := ""
  Data : List (String × String) := []
  Notification : Option PayloadBlob := none
  Android : Option PayloadBlob := none
  Webpush : Option PayloadBlob := none
  Apns : Option PayloadBlob := none
deriving DecidableEq, Repr

/-- `MulticastMessage` from the source; the Go `*Message` pointer field is
modelled as an `Option`. -/
structure MulticastMessage where
  Tokens : List String := []
  Message : Option Message := none
deriving DecidableEq, Repr

/-- `SendResponse`: the per-message outcome type used by the decoder.  Its
declaration is outside the covered source; the fields are exactly those the
covered source writes (`Success`, `MessageID`, `ErrorCode`, `ErrorBody`),
with Go zero values as defaults. -/
structure SendResponse where
  Success : Bool := false
  MessageID : String := ""
  ErrorCode : Nat := 0
  ErrorBody : String := ""
deriving DecidableEq, Repr

/-- `MulticastResponse` from the source (the `BatchResult` of the spec). -/
structure MulticastResponse where
  SuccessCount : Nat := 0
  FailureCount : Nat := 0
  Responses : List SendResponse := []
deriving DecidableEq, Repr

/-- `(*MulticastMessage).toMessages` from the source.  The Go code
dereferences `mm.Message` without a nil check once the token list is
non-empty; that nil-pointer panic is modelled as the error value below. -/
def MulticastMessage.toMessages (mm : MulticastMessage) :
    Except String (List GoFcm.Message) :=
  if mm.Tokens.length = 0 then .error "tokens must not be nil or empty"
  else if mm.Tokens.length > maxMessages then
    .error ("tokens must not contain more than " ++ natStr maxMessages ++ " elements")
  else
    match mm.Message with
    | none => .error "panic: nil pointer dereference"
    | some m =>
        .ok (mm.Tokens.map (fun token =>
          { Token := token
            Data := m.Data
            Notification := m.Notification
            Android := m.Android
            Webpush := m.Webpush
            Apns := m.Apns }))

/-- Package-level `toMessages` from the source (nil-receiver guard). -/
def toMessages (message : Option MulticastMessage) : Except String (List Message) :=
  match message with
  | none => .error "message must not be nil"
  | some mm => mm.toMessages

/-- The CRLF line terminator. -/
def crlf : List Char := ['\r', '\n']

/-- Byte-lexicographic comparison of character lists (models Go
`sort.Strings` order for the ASCII header keys that occur here). -/
def charListLt : List Char → List Char → Bool
  | [], [] => false
  | [], _ :: _ => true
  | _ :: _, [] => false
  | a :: as, b :: bs => if a < b then true else if b < a then false else charListLt as bs

/-- Insert a header into a key-sorted header list. -/
def insertByKey (kv : String × String) :
    List (String × String) → List (String × String)
  | [] => [kv]
  | h :: t => if charListLt kv.1.data h.1.data then kv :: h :: t else h :: insertByKey kv t

/-- Sort headers by key (models the sorted header output of Go's
`net/http` and `mime/multipart` writers). -/
def sortByKey : List (String × String) → List (String × String)
  | [] => []
  | h :: t => insertByKey h (sortByKey t)

/-- Models `textproto.CanonicalMIMEHeaderKey`: capitalize the first letter
and every letter following a hyphen, lowercase the rest. -/
def canonicalMIMEKeyCore : Bool → List Char → List Char
  | _, [] => []
  | up, c :: cs =>
    if c = '-' then '-' :: canonicalMIMEKeyCore true cs
    else (if up then c.toUpper else c.toLower) :: canonicalMIMEKeyCore false cs

/-- Canonical MIME header key (see `canonicalMIMEKeyCore`). -/
def canonicalMIMEKey (s : String) : String :=
  String.mk (canonicalMIMEKeyCore true s.data)

/-- Models `http.Header.Set`: canonicalize the key and replace any
existing entry. -/
def setHeader (hs : List (String × String)) (k v : String) :
    List (String × String) :=
  let ck := canonicalMIMEKey k
  hs.filter (fun kv => kv.1 ≠ ck) ++ [(ck, v)]

/-- Models `http.Header.Get` on a canonicalized header list. -/
def lookupHeader (hs : List (String × String)) (k : String) : Option String :=
  (hs.find? (fun kv => kv.1 == canonicalMIMEKey k)).map (fun kv => kv.2)

/-- Render header lines as `Key: value\r\n`. -/
def renderHeaderLines (hs : List (String × String)) : List Char :=
  (hs.map (fun kv => kv.1.data ++ ": ".data ++ kv.2.data ++ crlf)).flatten

/-- `fcmRequest` from the source: the JSON body of one embedded part.
Field order (`validate_only` first) and `omitempty` on both fields follow
the struct tags. -/
structure fcmRequest where
  ValidateOnly : Bool := false
  Message : Option Message := none
deriving DecidableEq, Repr

/-- JSON string escaping for the quote and backslash characters (the only
escapes the strings in scope can need). -/
def jsonEscape (cs : List Char) : List Char :=
  (cs.map (fun c =>
    if c = '"' then ['\\', '"'] else if c = '\\' then ['\\', '\\'] else [c])).flatten

/-- Render a JSON string literal. -/
def marshalString (s : String) : List Char :=
  '"' :: (jsonEscape s.data ++ ['"'])

/-- Modelled from the spec: the JSON wire form of `Message` is produced by
code outside the covered source and the payload schema is a declared
non-goal; only the token field is rendered. -/
def marshalMessage (m : Message) : List Char :=
  "\x7b\"token\":".data ++ marshalMessage.go m.Token
where go (t : String) : List Char := marshalString t ++ ['}']

/-- Models `json.Marshal` on `fcmRequest`: fields in declaration order,
both tagged `omitempty`. -/
def marshalFcmRequest (r : fcmRequest) : List Char :=
  match r.ValidateOnly, r.Message with
  | false, none => "\x7b\x7d".data
  | true, none => "\x7b\"validate_only\":true\x7d".data
  | false, some m => "\x7b\"message\":".data ++ marshalMessage m ++ "\x7d".data
  | true, some m => "\x7b\"validate_only\":true,\"message\":".data ++ marshalMessage m ++ "\x7d".data

/-- `part` from the source: one embedded logical request.  The Go `body`
field has type `interface{}` but the only value ever stored in it is an
`*fcmRequest`, so it is modelled at that type. -/
structure part where
  method : String
  url : String
  headers : List (String × String)
  body : fcmRequest
deriving DecidableEq, Repr

/-- Headers that `http.Request.Write` handles specially and excludes from
the sorted header dump (`reqWriteExcludeHeader`). -/
def reqWriteExclude : List String :=
  ["Host", "User-Agent", "Content-Length", "Transfer-Encoding", "Trailer"]

/-- Split a URL of the form `scheme://host/path` into host and
request-target; an absent path becomes `/` (`URL.RequestURI`). -/
def afterSchemeCore : List Char → Option (List Char)
  | ':' :: '/' :: '/' :: rest => some rest
  | _ :: rest => afterSchemeCore rest
  | [] => none

/-- Host and request-target of a URL (see `afterSchemeCore`). -/
def splitUrl (url : String) : List Char × List Char :=
  match afterSchemeCore url.data with
  | none => ([], url.data)
  | some rest =>
    let host := rest.takeWhile (fun c => c ≠ '/')
    let path := rest.dropWhile (fun c => c ≠ '/')
    (host, if path = [] then ['/'] else path)

/-- `part.bytes` from the source: marshal the body, build the embedded
HTTP request (its own headers, then `Content-Type` and an explicitly empty
`User-Agent`), and write it in wire form as `http.Request.Write` does:
request line, `Host`, `User-Agent` (suppressed when empty), the computed
`Content-Length`, the remaining headers sorted by key, a blank line, and
the body. -/
def part.bytes (p : part) : List Char :=
  let b := marshalFcmRequest p.body
  let hp := splitUrl p.url
  let hdrs0 := p.headers.foldl (fun acc kv => setHeader acc kv.1 kv.2) []
  let hdrs1 :=
    setHeader (setHeader hdrs0 "Content-Type" "application/json; charset=UTF-8")
      "User-Agent" ""
  let uaLine :=
    match lookupHeader hdrs1 "User-Agent" with
    | none => "User-Agent: Go-http-client/1.1\r\n".data
    | some ua => if ua = "" then [] else "User-Agent: ".data ++ ua.data ++ crlf
  let rest := sortByKey (hdrs1.filter (fun kv => ¬ reqWriteExclude.contains kv.1))
  p.method.data ++ [' '] ++ hp.2 ++ [' '] ++ "HTTP/1.1".data ++ crlf
    ++ "Host: ".data ++ hp.1 ++ crlf
    ++ uaLine
    ++ "Content-Length: ".data ++ natChars b.length ++ crlf
    ++ renderHeaderLines rest
    ++ crlf ++ b

/-- One MIME part as handed to `multipart.Writer.CreatePart`: its header
block (in `Add` order) and its payload. -/
structure MimePart where
  header : List (String × String)
  content : List Char
deriving DecidableEq, Repr

/-- `part.writeTo` from the source: compute the encoded embedded request
and hand a four-header MIME part to the multipart writer.  The headers are
listed in the order the source `Add`s them (all four keys are already in
canonical MIME form). -/
def part.writeTo (p : part) (idx : Nat) : MimePart :=
  let b := p.bytes
  { header := [("Content-Length", natStr b.length),
               ("Content-Type", "application/http"),
               ("Content-Id", natStr (idx + 1)),
               ("Content-Transfer-Encoding", "binary")]
    content := b }

/-- `multipartEntity` from the source. -/
structure multipartEntity where
  parts : List part
deriving DecidableEq, Repr

/-- The sequence of MIME parts created by `multipartEntity.Bytes`'s loop
(`for idx, part := range e.parts { part.writeTo(writer, idx) }`). -/
def multipartEntity.mimeParts (e : multipartEntity) : List MimePart :=
  e.parts.enum.map (fun ip => ip.2.writeTo ip.1)

/-- Serialization of one part by `multipart.Writer.CreatePart`: sorted
header lines, a blank line, then the content. -/
def serializeMimePart (mp : MimePart) : List Char :=
  renderHeaderLines (sortByKey mp.header) ++ crlf ++ mp.content

/-- Wire form produced by Go's `multipart.Writer` for a given boundary:
`--B` before the first part, `\r\n--B` before each later part, and the
closing `\r\n--B--` line from `Close`. -/
def serializeMultipart (boundary : String) (parts : List MimePart) : List Char :=
  match parts with
  | [] => "\r\n--".data ++ boundary.data ++ "--".data ++ crlf
  | p :: ps =>
    "--".data ++ boundary.data ++ crlf ++ serializeMimePart p
      ++ (ps.map (fun q =>
            "\r\n--".data ++ boundary.data ++ crlf ++ serializeMimePart q)).flatten
      ++ "\r\n--".data ++ boundary.data ++ "--".data ++ crlf

/-- `multipartEntity.Bytes` from the source. -/
def multipartEntity.Bytes (e : multipartEntity) : List Char :=
  serializeMultipart multipartBoundary e.mimeParts

/-- `multipartEntity.Mime` from the source. -/
def multipartEntity.Mime (_ : multipartEntity) : String :=
  "multipart/mixed; boundary=" ++ multipartBoundary

/-- Strip one pair of surrounding double quotes from a parameter value. -/
def stripQuotes (cs : List Char) : List Char :=
  match cs with
  | '"' :: rest => if rest.getLast? = some '"' then rest.dropLast else cs
  | _ => cs

/-- Whitespace for trimming. -/
def isSpaceChar (c : Char) : Bool := c = ' ' ∨ c = '\t' ∨ c = '\n' ∨ c = '\r'

/-- Trim leading and trailing whitespace. -/
def trimChars (cs : List Char) : List Char :=
  ((cs.dropWhile isSpaceChar).reverse.dropWhile isSpaceChar).reverse

/-- Split on a separator character (the separator is consumed). -/
def splitOnChar (sep : Char) : List Char → List (List Char)
  | [] => [[]]
  | c :: rest =>
    if c = sep then [] :: splitOnChar sep rest
    else
      match splitOnChar sep rest with
      | [] => [[c]]
      | l :: ls => (c :: l) :: ls

/-- One `key=value` media-type parameter (attribute lowercased, quoted
values unquoted); anything without an `=` is malformed. -/
def parseParam (chunk : List Char) : Except String (String × String) :=
  let cs := trimChars chunk
  let key := cs.takeWhile (fun c => c ≠ '=')
  match cs.dropWhile (fun c => c ≠ '=') with
  | '=' :: v =>
    if key = [] then .error "mime: invalid media parameter"
    else .ok (String.mk (key.map Char.toLower), String.mk (stripQuotes v))
  | _ => .error "mime: invalid media parameter"

/-- Parse the `;`-separated parameter chunks of a media type; the first
malformed parameter fails the whole parse. -/
def paramsOf : List (List Char) → Except String (List (String × String))
  | [] => .ok []
  | chunk :: rest =>
    match parseParam chunk with
    | .error e => .error e
    | .ok kv => (paramsOf rest).map (fun ps => kv :: ps)

/-- Models `mime.ParseMediaType` for the grammar in scope: a lowercased
media type before the first `;`, then `key=value` parameters.  An empty
media type or a malformed parameter is an error. -/
def parseMediaType (s : String) : Except String (String × List (String × String)) :=
  match splitOnChar ';' s.data with
  | [] => .error "mime: no media type"
  | mt :: rest =>
    let mediatype := String.mk ((trimChars mt).map Char.toLower)
    if mediatype = "" then .error "mime: no media type"
    else
      match paramsOf rest with
      | .error e => .error e
      | .ok ps => .ok (mediatype, ps)

/-- Go map indexing on the parameter map: a missing key yields the zero
value `""`. -/
def lookupParam (ps : List (String × String)) (k : String) : String :=
  match ps.find? (fun kv => kv.1 == k) with
  | some kv => kv.2
  | none => ""

/-- Does `s` start with `pre`? -/
def listStartsWith : List Char → List Char → Bool
  | [], _ => true
  | _ :: _, [] => false
  | a :: as, b :: bs => a = b && listStartsWith as bs

/-- Split a byte sequence into CRLF-terminated lines (the final element is
the trailing bytes after the last CRLF). -/
def splitCRLF : List Char → List (List Char)
  | [] => [[]]
  | '\r' :: '\n' :: rest => [] :: splitCRLF rest
  | c :: rest =>
    match splitCRLF rest with
    | [] => [[c]]
    | l :: ls => (c :: l) :: ls

/-- Only linear whitespace after a boundary marker. -/
def onlyLWS (cs : List Char) : Bool := cs.all (fun c => c = ' ' ∨ c = '\t')

/-- Is this line a part-delimiter line `--boundary` (plus optional
whitespace)?  `dash` is `--boundary`. -/
def isDelimLine (dash line : List Char) : Bool :=
  listStartsWith dash line && onlyLWS (line.drop dash.length)

/-- Is this line the final delimiter `--boundary--`? -/
def isFinalLine (dash line : List Char) : Bool :=
  listStartsWith (dash ++ ['-', '-']) line && onlyLWS (line.drop (dash.length + 2))

/-- Rejoin collected content lines with CRLF. -/
def joinContent (ls : List (List Char)) : List Char :=
  (ls.intersperse crlf).flatten

/-- Parser mode inside the multipart body: reading a part's MIME header
block, or its content lines. -/
inductive MpMode where
  | header
  | content
deriving DecidableEq, Repr

/-- Line-by-line walk over the multipart body after the first delimiter
line, modelling `multipart.Reader.NextPart` / part reads: MIME header
lines (which the decoder discards) run until a blank line; content then
runs until the next delimiter or the final delimiter; end of input before
the final delimiter is the unexpected-EOF error Go reports. -/
def mpRun (dash : List Char) : List (List Char) → MpMode → List (List Char) →
    Except String (List (List Char))
  | [], _, _ => .error "multipart: unexpected EOF"
  | l :: rest, .header, acc =>
    if l = [] then mpRun dash rest .content acc
    else if l.contains ':' then mpRun dash rest .header acc
    else .error "malformed MIME header line"
  | l :: rest, .content, acc =>
    if isFinalLine dash l then .ok [joinContent acc]
    else if isDelimLine dash l then
      (mpRun dash rest .header []).map (fun ps => joinContent acc :: ps)
    else mpRun dash rest .content (acc ++ [l])

/-- Skip the preamble before the first delimiter line.  Running out of
input first is `io.EOF`, which the decoding loop treats as a normal end
with zero parts; so is an immediate final delimiter. -/
def mpPreamble (dash : List Char) : List (List Char) → Except String (List (List Char))
  | [] => .ok []
  | l :: rest =>
    if isFinalLine dash l then .ok []
    else if isDelimLine dash l then mpRun dash rest .header []
    else mpPreamble dash rest

/-- Models `multipart.NewReader` plus the `NextPart` loop: an empty
boundary fails (as Go's `nextPart` checks), otherwise the body is walked
line by line and the content of each part is returned in order. -/
def parseMultipart (boundary : String) (body : List Char) :
    Except String (List (List Char)) :=
  if boundary = "" then .error "multipart: boundary is empty"
  else mpPreamble ("--".data ++ boundary.data) (splitCRLF body)

/-- Take one CRLF-terminated line off the front; `none` when no CRLF
remains. -/
def takeLine : List Char → Option (List Char × List Char)
  | [] => none
  | c :: rest =>
    if c = '\r' ∧ rest.head? = some '\n' then some ([], rest.tail)
    else (takeLine rest).map (fun lr => (c :: lr.1, lr.2))

theorem takeLine_length (cs : List Char) :
    ∀ l rest, takeLine cs = some (l, rest) → rest.length < cs.length := by
  induction cs with
  | nil => intro l rest h; simp [takeLine] at h
  | cons c cs ih =>
    intro l rest h
    simp only [takeLine] at h
    split at h
    · injection h with hpair
      have hr : rest = cs.tail := (congrArg Prod.snd hpair).symm
      subst hr
      simp [List.length_tail]
      omega
    · cases he : takeLine cs with
      | none => rw [he] at h; simp at h
      | some lr =>
        rw [he] at h
        simp only [Option.map] at h
        injection h with hpair
        have hr : rest = lr.2 := (congrArg Prod.snd hpair).symm
        subst hr
        exact Nat.lt_succ_of_lt (ih lr.1 lr.2 (by rw [he]))

/-- Split a header line `Key: value` at the first colon, dropping the
spaces that lead the value. -/
def parseHeaderLine (l : List Char) : Option (List Char × List Char) :=
  let k := l.takeWhile (fun c => c ≠ ':')
  match l.dropWhile (fun c => c ≠ ':') with
  | ':' :: v => some (k, v.dropWhile (fun c => c = ' '))
  | _ => none

/-- Parse MIME header lines up to and including the blank line, returning
the headers and the remaining bytes; fuelled recursion (every line
consumes input, so any fuel above the input length gives the same
answer). -/
def parseHeaderSectionCore : Nat → List Char →
    Option (List (List Char × List Char) × List Char)
  | 0, _ => none
  | fuel + 1, cs =>
    match takeLine cs with
    | none => none
    | some (l, rest) =>
      if l = [] then some ([], rest)
      else
        match parseHeaderLine l with
        | none => none
        | some kv =>
          (parseHeaderSectionCore fuel rest).map (fun hr => (kv :: hr.1, hr.2))

/-- Parse MIME header lines up to and including the blank line. -/
def parseHeaderSection (cs : List Char) :
    Option (List (List Char × List Char) × List Char) :=
  parseHeaderSectionCore (cs.length + 1) cs

/-- Header lookup on a parsed raw header list; the wire key is
canonicalized as `textproto.ReadMIMEHeader` does, the query key is given
already canonical. -/
def lookupHdr (hs : List (List Char × List Char)) (k : List Char) :
    Option (List Char) :=
  (hs.find? (fun kv => canonicalMIMEKeyCore true kv.1 == k)).map (fun kv => kv.2)

/-- A parsed embedded HTTP response (`http.ReadResponse` plus the
`ioutil.ReadAll` of its body). -/
structure RawResponse where
  statusCode : Nat
  headers : List (List Char × List Char)
  body : List Char
deriving DecidableEq, Repr

/-- Models `http.ReadResponse` followed by reading the body to EOF:
status line `proto SP code SP reason`, the version must start with
`HTTP/`, the status code must be exactly three digits, headers run to a
blank line, and a `Content-Length` header bounds the body (a body shorter
than it is Go's unexpected-EOF read error; without it the body is the
rest of the part). -/
def readResponse (bs : List Char) : Except String RawResponse :=
  match takeLine bs with
  | none => .error "malformed HTTP response"
  | some (statusLine, rest) =>
    let proto := statusLine.takeWhile (fun c => c ≠ ' ')
    match statusLine.dropWhile (fun c => c ≠ ' ') with
    | ' ' :: statusRest =>
      let codeStr := statusRest.takeWhile (fun c => c ≠ ' ')
      if ¬ listStartsWith "HTTP/".data proto then .error "malformed HTTP version"
      else if codeStr.length ≠ 3 then .error "malformed HTTP status code"
      else
        match parseNat codeStr with
        | none => .error "malformed HTTP status code"
        | some code =>
          match parseHeaderSection rest with
          | none => .error "malformed MIME header"
          | some (hdrs, body0) =>
            match lookupHdr hdrs "Content-Length".data with
            | none => .ok ⟨code, hdrs, body0⟩
            | some clv =>
              match parseNat clv with
              | none => .error "bad Content-Length"
              | some n =>
                if n ≤ body0.length then .ok ⟨code, hdrs, body0.take n⟩
                else .error "unexpected EOF"
    | _ => .error "malformed HTTP response"

/-- Skip JSON insignificant whitespace. -/
def skipWs (cs : List Char) : List Char :=
  cs.dropWhile (fun c => c = ' ' ∨ c = '\t' ∨ c = '\n' ∨ c = '\r')

/-- Parse a JSON string body after its opening quote, unescaping `\"` and
`\\` (the escapes that can occur in the strings in scope); returns the
content and the rest after the closing quote. -/
def parseJsonString : List Char → Option (List Char × List Char)
  | [] => none
  | '\\' :: e :: rest =>
    if e = '"' ∨ e = '\\' then
      (parseJsonString rest).map (fun pr => (e :: pr.1, pr.2))
    else none
  | '"' :: rest => some ([], rest)
  | c :: rest => (parseJsonString rest).map (fun pr => (c :: pr.1, pr.2))

/-- A bare JSON scalar token (`true`, `false`, `null`, or a number). -/
def isScalarTok (t : List Char) : Bool :=
  t = "true".data ∨ t = "false".data ∨ t = "null".data ∨
    (t ≠ [] && t.all (fun c =>
      c.isDigit ∨ c = '-' ∨ c = '+' ∨ c = '.' ∨ c = 'e' ∨ c = 'E'))

/-- Member loop of a one-level JSON object, tracking the value of the
`name` member.  Phase 0: just after `{`; phase 1: just after a member
value; phase 2: just after a `,`.  Values may be strings or bare scalar
tokens — the shapes `json.Unmarshal` meets in FCM batch responses;
fuelled recursion (the fuel passed in always suffices, each step consumes
input). -/
def jsonObj : Nat → Nat → List Char → String → Option (String × List Char)
  | 0, _, _, _ => none
  | fuel + 1, phase, cs, nm =>
    match skipWs cs, phase with
    | '}' :: rest, 0 => some (nm, rest)
    | '}' :: rest, 1 => some (nm, rest)
    | ',' :: rest, 1 => jsonObj fuel 2 rest nm
    | '"' :: rest, 0 | '"' :: rest, 2 =>
      match parseJsonString rest with
      | none => none
      | some (key, rest1) =>
        match skipWs rest1 with
        | ':' :: rest2 =>
          match skipWs rest2 with
          | '"' :: rest3 =>
            match parseJsonString rest3 with
            | none => none
            | some (v, rest4) =>
              jsonObj fuel 1 rest4 (if key = "name".data then String.mk v else nm)
          | other =>
            let tok := other.takeWhile (fun c =>
              c ≠ ',' ∧ c ≠ '}' ∧ c ≠ ' ' ∧ c ≠ '\n' ∧ c ≠ '\t' ∧ c ≠ '\r')
            if isScalarTok tok then jsonObj fuel 1 (other.drop tok.length) nm
            else none
        | _ => none
    | _, _ => none

/-- Models `json.Unmarshal` of a part body into `fcmResponse{Name}`: the
body must be a complete JSON object (with nothing but whitespace after
it); a missing `name` member leaves the Go zero value `""`. -/
def jsonFcmName (bs : List Char) : Except String String :=
  match skipWs bs with
  | '{' :: rest =>
    match jsonObj (bs.length + 1) 0 rest "" with
    | none => .error "invalid JSON in response body"
    | some (nm, rest') =>
      if skipWs rest' = [] then .ok nm
      else .error "invalid character after top-level JSON value"
  | _ => .error "json: cannot unmarshal body into fcmResponse"

/-- Errors returned by the batch path: plain `error` values and the
`HttpError` carrying request/response dumps. -/
inductive FcmError where
  | simple (msg : String)
  | httpError (requestDump responseDump : String) (msg : String)
deriving DecidableEq, Repr

/-- `newSendResponse` from the source: parse the part content as an
embedded HTTP response; a non-200 status is a per-item `Failure` outcome
carrying the status and raw body, a 200 status decodes the JSON body and
is a `Success` outcome carrying the `name` field. -/
def newSendResponse (content : List Char) : Except FcmError SendResponse :=
  match readResponse content with
  | .error e => .error (.simple ("error parsing multipart body: " ++ e))
  | .ok hr =>
    if hr.statusCode ≠ 200 then
      .ok { Success := false, ErrorCode := hr.statusCode, ErrorBody := String.mk hr.body }
    else
      match jsonFcmName hr.body with
      | .error e => .error (.simple e)
      | .ok name => .ok { Success := true, MessageID := name }

/-- The outer HTTP request the batch call sends. -/
structure Request where
  method : String
  url : String
  headers : List (String × String)
  body : List Char
deriving DecidableEq, Repr

/-- The outer HTTP response the transport returns. -/
structure Response where
  statusCode : Nat
  status : String
  headers : List (String × String)
  body : List Char
deriving DecidableEq, Repr

/-- `resp.Header.Get`: missing headers read as `""`. -/
def Response.getHeader (r : Response) (k : String) : String :=
  match lookupHeader r.headers k with
  | some v => v
  | none => ""

/-- The per-part decoding loop of `newBatchResponse`: the first failing
part aborts the whole decode. -/
def decodeParts : List (List Char) → Except FcmError (List SendResponse)
  | [] => .ok []
  | p :: ps =>
    match newSendResponse p with
    | .error e => .error e
    | .ok sr =>
      match decodeParts ps with
      | .error e => .error e
      | .ok rs => .ok (sr :: rs)

/-- `newBatchResponse` from the source: parse the boundary out of the
response `Content-Type`, iterate the multipart parts, decode each, and
count successes (`FailureCount` is `len(responses) - successCount`). -/
def newBatchResponse (resp : Response) : Except FcmError MulticastResponse :=
  match parseMediaType (resp.getHeader "Content-Type") with
  | .error e => .error (.simple ("error parsing content-type header: " ++ e))
  | .ok mtp =>
    match parseMultipart (lookupParam mtp.2 "boundary") resp.body with
    | .error e => .error (.simple e)
    | .ok parts =>
      match decodeParts parts with
      | .error e => .error e
      | .ok rs =>
        let successCount := rs.countP (fun sr => sr.Success)
        .ok { Responses := rs
              SuccessCount := successCount
              FailureCount := rs.length - successCount }

/-- Observable collaborator interactions of one batch call, in order:
the outer request being constructed (`http.NewRequest` succeeding), the
token provider being asked for a bearer token, and the request reaching
the transport (`c.client.Do`). -/
inductive Event where
  | builtOuterRequest
  | tokenCall
  | transportCall
deriving DecidableEq, Repr

/-- The client together with its external collaborators: the message
validator, the token provider's answer for this call, and the HTTP
transport. -/
structure ClientCfg where
  sendEndpoint : String
  batchEndpoint : String
  validate : Message → Except String Unit
  token : Except String String
  transport : Request → Except String Response

/-- Models `httputil.DumpRequest(req, true)`: a textual rendering of the
request line, headers and body. -/
def dumpRequest (req : Request) : String :=
  req.method ++ " " ++ req.url ++ "\r\n" ++
    String.mk (renderHeaderLines req.headers) ++ "\r\n" ++ String.mk req.body

/-- Models `httputil.DumpResponse(resp, true)`. -/
def dumpResponse (resp : Response) : String :=
  natStr resp.statusCode ++ " " ++ resp.status ++ "\r\n" ++
    String.mk (renderHeaderLines resp.headers) ++ "\r\n" ++ String.mk resp.body

/-- The validation loop of `newBatchRequest`: validate each message in
order (a failure aborts the whole assembly naming the failing index) and
wrap it as a part whose body is `{message, validate_only}` targeting the
per-message send endpoint. -/
def buildParts (c : ClientCfg) (headers : List (String × String)) (dryRun : Bool) :
    Nat → List Message → Except String (List part)
  | _, [] => .ok []
  | idx, m :: ms =>
    match c.validate m with
    | .error e => .error ("invalid message at index " ++ natStr idx ++ ": " ++ e)
    | .ok _ =>
      match buildParts c headers dryRun (idx + 1) ms with
      | .error e => .error e
      | .ok ps =>
        .ok ({ method := "POST", url := c.sendEndpoint, headers := headers
               body := { Message := some m, ValidateOnly := dryRun } } :: ps)

/-- `newBatchRequest` from the source: build the parts (validating each
message), serialize the multipart body, construct the outer POST to the
batch endpoint, then ask the token provider and add the `Authorization`
and `Content-Type` headers.  The event trace records that the request is
constructed before the token call. -/
def newBatchRequest (c : ClientCfg) (messages : List Message) (dryRun : Bool) :
    Except String Request × List Event :=
  let headers := [(apiFormatVersionHeader, apiFormatVersion)]
  match buildParts c headers dryRun 0 messages with
  | .error e => (.error e, [])
  | .ok parts =>
    let body : multipartEntity := ⟨parts⟩
    let req0 : Request :=
      { method := "POST", url := c.batchEndpoint, headers := [], body := body.Bytes }
    match c.token with
    | .error e => (.error e, [.builtOuterRequest, .tokenCall])
    | .ok t =>
      (.ok { req0 with
              headers := [("Authorization", "Bearer " ++ t),
                          ("Content-Type", body.Mime)] },
       [.builtOuterRequest, .tokenCall])

/-- The body of `sendBatch` after its size guards: build the request,
execute it, and classify the outer status.  A non-200 outer status fails
with `HttpError` carrying the two dumps (the source duplicates this
branch for status ≥ 500 with an identical value); a 200 status hands the
body to `newBatchResponse`. -/
def sendBatchChecked (c : ClientCfg) (messages : List Message) (dryRun : Bool) :
    Except FcmError MulticastResponse × List Event :=
  match newBatchRequest c messages dryRun with
  | (.error e, tr) => (.error (.simple e), tr)
  | (.ok req, tr) =>
    match c.transport req with
    | .error e => (.error (.simple e), tr ++ [.transportCall])
    | .ok resp =>
      if resp.statusCode ≠ 200 then
        (.error (.httpError (dumpRequest req) (dumpResponse resp)
            (natStr resp.statusCode ++ " error: " ++ resp.status)),
         tr ++ [.transportCall])
      else (newBatchResponse resp, tr ++ [.transportCall])

/-- `sendBatch` from the source: reject empty and oversized batches
before anything else, then run the checked body. -/
def sendBatch (c : ClientCfg) (messages : List Message) (dryRun : Bool) :
    Except FcmError MulticastResponse × List Event :=
  if messages.length = 0 then
    (.error (.simple "messages must not be nil or empty"), [])
  else if messages.length > maxMessages then
    (.error (.simple ("messages must not contain more than " ++
      natStr maxMessages ++ " elements")), [])
  else sendBatchChecked c messages dryRun

/-- Is an `Except` an error? -/
def isErr {ε α : Type} : Except ε α → Bool
  | .error _ => true
  | .ok _ => false

/- Concrete fixtures used to instantiate the theorems below. -/

/-- A message carrying only a token. -/
def testMessage (t : String) : Message := { Token := t }

/-- A concrete validator: the token `"bad"` fails, everything else is
well-formed. -/
def testValidate : Message → Except String Unit :=
  fun m => if m.Token = "bad" then .error "boom" else .ok ()

/-- A well-formed multipart response body with one successful part. -/
def testResponseBody : String :=
  "--BNDRY\r\nContent-Type: application/http\r\n\r\nHTTP/1.1 200 OK\r\n\r\n\x7b\"name\":\"n1\"\x7d\r\n--BNDRY--\r\n"

/-- A 200 outer response carrying `testResponseBody`. -/
def testResponse : Response :=
  { statusCode := 200, status := "200 OK"
    headers := [("Content-Type", "multipart/mixed; boundary=BNDRY")]
    body := testResponseBody.data }

/-- A concrete client configuration whose transport always answers with
`testResponse`. -/
def testCfg : ClientCfg :=
  { sendEndpoint := "https://fcm.googleapis.com/v1/projects/p/messages:send"
    batchEndpoint := "https://fcm.googleapis.com/batch"
    validate := testValidate
    token := .ok "TKN"
    transport := fun _ => .ok testResponse }

/-- The single part `newBatchRequest` builds for `[testMessage "t1"]`. -/
def testPart : part :=
  { method := "POST", url := testCfg.sendEndpoint
    headers := [(apiFormatVersionHeader, apiFormatVersion)]
    body := { ValidateOnly := false, Message := some (testMessage "t1") } }

/-- The outer request `newBatchRequest testCfg [testMessage "t1"] false`
produces. -/
def testOuterRequest : Request :=
  { method := "POST", url := testCfg.batchEndpoint
    headers := [("Authorization", "Bearer TKN"),
                ("Content-Type", "multipart/mixed; boundary=" ++ multipartBoundary)]
    body := multipartEntity.Bytes ⟨[testPart]⟩ }

/-- C10: a `MulticastMessage` with a non-nil `Message` and 1..500 tokens
fans out into exactly one message per token, in token order, each copying
the shared payload fields; a nil `MulticastMessage`, an empty token list,
or more than 500 tokens is an error. -/
theorem toMessages_multicast_fanout :
    (∀ (mm : MulticastMessage) (m : Message), mm.Message = some m →
      1 ≤ mm.Tokens.length → mm.Tokens.length ≤ maxMessages →
      toMessages (some mm) = .ok (mm.Tokens.map (fun token =>
        { Token := token, Data := m.Data, Notification := m.Notification,
          Android := m.Android, Webpush := m.Webpush, Apns := m.Apns }))) ∧
    toMessages none = .error "message must not be nil" ∧
    (∀ mm : MulticastMessage, mm.Tokens = [] →
      ∃ e, toMessages (some mm) = .error e) ∧
    (∀ mm : MulticastMessage, mm.Tokens.length > maxMessages →
      ∃ e, toMessages (some mm) = .error e) := by
  refine ⟨?_, rfl, ?_, ?_⟩
  · intro mm m hm h1 h2
    have h0 : ¬ mm.Tokens.length = 0 := by omega
    have h5 : ¬ mm.Tokens.length > maxMessages := by omega
    simp [toMessages, MulticastMessage.toMessages, h0, h5, hm]
  · intro mm h
    exact ⟨"tokens must not be nil or empty",
      by simp [toMessages, MulticastMessage.toMessages, h]⟩
  · intro mm h
    have h0 : ¬ mm.Tokens.length = 0 := by omega
    exact ⟨"tokens must not contain more than " ++ natStr maxMessages ++ " elements",
      by simp [toMessages, MulticastMessage.toMessages, h0, h]⟩

/-- Witness for `toMessages_multicast_fanout` at concrete inputs. -/
theorem toMessages_multicast_fanout_witness :
    toMessages (some { Tokens := ["t1", "t2"], Message := some (testMessage "x") }) =
      .ok [testMessage "t1", testMessage "t2"] ∧
    (∃ e, toMessages (some { Tokens := [], Message := some (testMessage "x") }) = .error e) ∧
    (∃ e, toMessages (some { Tokens := List.replicate 501 "t",
                             Message := some (testMessage "x") }) = .error e) := by
  refine ⟨?_, ?_, ?_⟩
  · have h := toMessages_multicast_fanout.1
      { Tokens := ["t1", "t2"], Message := some (testMessage "x") }
      (testMessage "x") rfl (by decide) (by decide)
    simpa [testMessage] using h
  · exact toMessages_multicast_fanout.2.2.1 _ rfl
  · refine toMessages_multicast_fanout.2.2.2 _ ?_
    show (List.replicate 501 "t").length > maxMessages
    rw [List.length_replicate]
    decide

/-- C6: `sendBatch` rejects an empty list and a list of more than 500
messages with an `InvalidArgument`-style error and an empty collaborator
trace (nothing reaches the network); every size 1..500 passes the size
guard and proceeds to the checked body. -/
theorem sendBatch_size_guard (c : ClientCfg) (messages : List Message) (dryRun : Bool) :
    (messages.length = 0 →
      sendBatch c messages dryRun =
        (.error (.simple "messages must not be nil or empty"), [])) ∧
    (messages.length > maxMessages →
      sendBatch c messages dryRun =
        (.error (.simple ("messages must not contain more than " ++
          natStr maxMessages ++ " elements")), [])) ∧
    (1 ≤ messages.length → messages.length ≤ maxMessages →
      sendBatch c messages dryRun = sendBatchChecked c messages dryRun) := by
  refine ⟨?_, ?_, ?_⟩
  · intro h
    simp [sendBatch, h]
  · intro h
    have h0 : ¬ messages.length = 0 := by omega
    simp [sendBatch, h0, h]
  · intro h1 h2
    have h0 : ¬ messages.length = 0 := by omega
    have h5 : ¬ messages.length > maxMessages := by omega
    simp [sendBatch, h0, h5]

theorem buildParts_first_invalid (c : ClientCfg) (headers : List (String × String))
    (dryRun : Bool) :
    ∀ (messages : List Message) (start k : Nat) (e : String) (hk : k < messages.length),
      c.validate (messages.get ⟨k, hk⟩) = .error e →
      (∀ j (hj : j < messages.length), j < k → c.validate (messages.get ⟨j, hj⟩) = .ok ()) →
      buildParts c headers dryRun start messages =
        .error ("invalid message at index " ++ natStr (start + k) ++ ": " ++ e) := by
  intro messages
  induction messages with
  | nil => intro start k e hk; simp at hk
  | cons m ms ih =>
    intro start k e hk hbad hgood
    cases k with
    | zero =>
      have hb : c.validate m = .error e := by simpa using hbad
      simp [buildParts, hb]
    | succ k' =>
      have h0 : c.validate m = .ok () := by simpa using hgood 0 (by simp) (by omega)
      have hk' : k' < ms.length := by
        have hx := hk
        simp [List.length_cons] at hx
        omega
      have hbad' : c.validate (ms.get ⟨k', hk'⟩) = .error e := by simpa using hbad
      have hgood' : ∀ j (hj : j < ms.length), j < k' →
          c.validate (ms.get ⟨j, hj⟩) = .ok () := by
        intro j hj hjk
        have hx := hgood (j + 1) (by simp [List.length_cons]; omega) (by omega)
        simpa using hx
      have hrec := ih (start + 1) k' e hk' hbad' hgood'
      have harith : start + 1 + k' = start + (k' + 1) := by omega
      rw [harith] at hrec
      simp [buildParts, h0, hrec]

theorem buildParts_all_valid (c : ClientCfg) (headers : List (String × String))
    (dryRun : Bool) :
    ∀ (messages : List Message) (start : Nat),
      (∀ m ∈ messages, c.validate m = .ok ()) →
      ∃ ps, buildParts c headers dryRun start messages = .ok ps := by
  intro messages
  induction messages with
  | nil => intro start h; exact ⟨[], rfl⟩
  | cons m ms ih =>
    intro start h
    have h0 : c.validate m = .ok () := h m (by simp)
    obtain ⟨ps, hps⟩ := ih (start + 1) (fun x hx => h x (by simp [hx]))
    exact ⟨{ method := "POST", url := c.sendEndpoint, headers := headers,
             body := { ValidateOnly := dryRun, Message := some m } } :: ps,
           by simp [buildParts, h0, hps]⟩

/-- C5: with exactly one invalid message, at index k, in an otherwise
valid batch (of admissible size), assembly aborts with the error naming
index k, no outbound request is produced, and nothing reaches the
transport — the collaborator trace of the whole call is empty. -/
theorem batch_invalid_message_aborts (c : ClientCfg) (messages : List Message)
    (dryRun : Bool) (k : Nat) (e : String) (hk : k < messages.length)
    (hbad : c.validate (messages.get ⟨k, hk⟩) = .error e)
    (hgood : ∀ j (hj : j < messages.length), j ≠ k →
      c.validate (messages.get ⟨j, hj⟩) = .ok ())
    (hsize : messages.length ≤ maxMessages) :
    newBatchRequest c messages dryRun =
      (.error ("invalid message at index " ++ natStr k ++ ": " ++ e), []) ∧
    sendBatch c messages dryRun =
      (.error (.simple ("invalid message at index " ++ natStr k ++ ": " ++ e)), []) ∧
    Event.transportCall ∉ (sendBatch c messages dryRun).2 := by
  have hbp := buildParts_first_invalid c [(apiFormatVersionHeader, apiFormatVersion)]
    dryRun messages 0 k e hk hbad (fun j hj hjk => hgood j hj (by omega))
  rw [Nat.zero_add] at hbp
  have hn : newBatchRequest c messages dryRun =
      (.error ("invalid message at index " ++ natStr k ++ ": " ++ e), []) := by
    simp [newBatchRequest, hbp]
  have h0 : ¬ messages.length = 0 := by omega
  have h5 : ¬ messages.length > maxMessages := by omega
  have hs : sendBatch c messages dryRun =
      (.error (.simple ("invalid message at index " ++ natStr k ++ ": " ++ e)), []) := by
    simp [sendBatch, h0, h5, sendBatchChecked, hn]
  exact ⟨hn, hs, by rw [hs]; simp⟩

/-- Witness for `batch_invalid_message_aborts`: the invalid token at
index 1 of a three-message batch. -/
theorem batch_invalid_message_aborts_witness :
    newBatchRequest testCfg [testMessage "t1", testMessage "bad", testMessage "t3"] false =
      (.error "invalid message at index 1: boom", []) ∧
    sendBatch testCfg [testMessage "t1", testMessage "bad", testMessage "t3"] false =
      (.error (.simple "invalid message at index 1: boom"), []) := by
  have h := batch_invalid_message_aborts testCfg
    [testMessage "t1", testMessage "bad", testMessage "t3"] false 1 "boom"
    (by decide) (by rfl)
    (by intro j hj hne; simp at hj; interval_cases j <;>
      simp_all [testCfg, testValidate, testMessage])
    (by decide)
  have hs : natStr 1 = "1" := by decide
  rw [hs] at h
  exact ⟨h.1, h.2.1⟩

/-- A client whose token provider fails. -/
def tokenFailCfg : ClientCfg := { testCfg with token := .error "token acquisition failed" }

/-- C7 counterexample: at a concrete batch call whose token provider
fails, the failure does propagate, but the collaborator trace shows the
outer request being built BEFORE the token provider is consulted — the
claim that the failure occurs before the outbound request is built is
false on this code. -/
theorem token_failure_request_already_built :
    sendBatch tokenFailCfg [testMessage "t1"] false =
      (.error (.simple "token acquisition failed"),
       [Event.builtOuterRequest, Event.tokenCall]) ∧
    Event.builtOuterRequest ∈ (sendBatch tokenFailCfg [testMessage "t1"] false).2 := by
  exact ⟨rfl, by decide⟩

/-- C7 amended: a token-provider failure on an otherwise valid batch
propagates to the caller as the token error, after the outer request has
been constructed but before anything reaches the transport. -/
theorem token_failure_propagates (c : ClientCfg) (messages : List Message) (dryRun : Bool)
    (e : String) (htok : c.token = .error e)
    (hval : ∀ m ∈ messages, c.validate m = .ok ())
    (h1 : 1 ≤ messages.length) (h2 : messages.length ≤ maxMessages) :
    sendBatch c messages dryRun =
      (.error (.simple e), [Event.builtOuterRequest, Event.tokenCall]) ∧
    Event.transportCall ∉ (sendBatch c messages dryRun).2 := by
  obtain ⟨ps, hps⟩ := buildParts_all_valid c [(apiFormatVersionHeader, apiFormatVersion)]
    dryRun messages 0 hval
  have hn : newBatchRequest c messages dryRun =
      (.error e, [.builtOuterRequest, .tokenCall]) := by
    simp [newBatchRequest, hps, htok]
  have h0 : ¬ messages.length = 0 := by omega
  have h5 : ¬ messages.length > maxMessages := by omega
  have hs : sendBatch c messages dryRun =
      (.error (.simple e), [Event.builtOuterRequest, Event.tokenCall]) := by
    simp [sendBatch, h0, h5, sendBatchChecked, hn]
  exact ⟨hs, by rw [hs]; simp⟩

/-- Witness for `token_failure_propagates` at the concrete failing
provider. -/
theorem token_failure_propagates_witness :
    sendBatch tokenFailCfg [testMessage "t1"] false =
      (.error (.simple "token acquisition failed"),
       [Event.builtOuterRequest, Event.tokenCall]) :=
  (token_failure_propagates tokenFailCfg [testMessage "t1"] false
    "token acquisition failed" rfl
    (by intro m hm; simp at hm; subst hm; rfl) (by decide) (by decide)).1

/-- Witness for `sendBatch_size_guard` at concrete inputs. -/
theorem sendBatch_size_guard_witness :
    sendBatch testCfg [] false =
      (.error (.simple "messages must not be nil or empty"), []) ∧
    sendBatch testCfg (List.replicate 501 (testMessage "t")) false =
      (.error (.simple "messages must not contain more than 500 elements"), []) ∧
    sendBatch testCfg [testMessage "t1"] false =
      sendBatchChecked testCfg [testMessage "t1"] false := by
  refine ⟨(sendBatch_size_guard testCfg [] false).1 rfl, ?_, ?_⟩
  · have h := (sendBatch_size_guard testCfg (List.replicate 501 (testMessage "t")) false).2.1
      (by rw [List.length_replicate]; decide)
    have hs : natStr maxMessages = "500" := by decide
    rw [hs] at h
    exact h
  · exact (sendBatch_size_guard testCfg [testMessage "t1"] false).2.2
      (by decide) (by decide)

/-- C2 amended: the outer-status classification of `sendBatch` switches on
exactly 200, not on the 2xx class: any non-200 status (2xx or not) fails
with `HttpError` carrying the request and response dumps and no
`BatchResult`; a 200 status hands the body to the multipart decoder and
returns its result unchanged, so per-item failures can only surface inside
an `ok` result. -/
theorem outer_status_classification (c : ClientCfg) (messages : List Message)
    (dryRun : Bool) (req : Request) (tr : List Event) (resp : Response)
    (h1 : 1 ≤ messages.length) (h2 : messages.length ≤ maxMessages)
    (hreq : newBatchRequest c messages dryRun = (.ok req, tr))
    (hresp : c.transport req = .ok resp) :
    (resp.statusCode ≠ 200 →
      sendBatch c messages dryRun =
        (.error (.httpError (dumpRequest req) (dumpResponse resp)
           (natStr resp.statusCode ++ " error: " ++ resp.status)),
         tr ++ [Event.transportCall])) ∧
    (resp.statusCode = 200 →
      sendBatch c messages dryRun = (newBatchResponse resp, tr ++ [Event.transportCall])) ∧
    (resp.statusCode = 200 → ∀ r, newBatchResponse resp = .ok r →
      sendBatch c messages dryRun = (.ok r, tr ++ [Event.transportCall])) := by
  have h0 : ¬ messages.length = 0 := by omega
  have h5 : ¬ messages.length > maxMessages := by omega
  refine ⟨?_, ?_, ?_⟩
  · intro hne
    simp [sendBatch, h0, h5, sendBatchChecked, hreq, hresp, hne]
  · intro heq
    simp [sendBatch, h0, h5, sendBatchChecked, hreq, hresp, heq]
  · intro heq r hr
    simp [sendBatch, h0, h5, sendBatchChecked, hreq, hresp, heq, hr]

/-- The outer response with status 201 instead of 200 but the same
decodable multipart body. -/
def resp201 : Response := { testResponse with statusCode := 201, status := "201 Created" }

/-- A client whose transport answers 201. -/
def cfg201 : ClientCfg := { testCfg with transport := fun _ => .ok resp201 }

/-- C2 counterexample: a 201 outer status is 2xx and its body is
decodable, yet the batch call fails with a call-level error instead of
returning the decoder's BatchResult — the code switches on status 200,
not on the 2xx class. -/
theorem outer_2xx_not_decoded :
    (200 ≤ resp201.statusCode ∧ resp201.statusCode < 300) ∧
    newBatchResponse resp201 =
      .ok { SuccessCount := 1, FailureCount := 0,
            Responses := [{ Success := true, MessageID := "n1" }] } ∧
    isErr (sendBatch cfg201 [testMessage "t1"] false).1 = true :=
  ⟨by decide, by rfl, by rfl⟩

/-- Witness for `outer_status_classification` on a concrete 200
exchange. -/
theorem outer_status_classification_witness :
    sendBatch testCfg [testMessage "t1"] false =
      (.ok { SuccessCount := 1, FailureCount := 0,
             Responses := [{ Success := true, MessageID := "n1" }] },
       [Event.builtOuterRequest, Event.tokenCall, Event.transportCall]) := by
  have h := (outer_status_classification testCfg [testMessage "t1"] false
      testOuterRequest [Event.builtOuterRequest, Event.tokenCall] testResponse
      (by decide) (by decide) (by rfl) (by rfl)).2.2 rfl
      { SuccessCount := 1, FailureCount := 0,
        Responses := [{ Success := true, MessageID := "n1" }] }
      (by rfl)
  simpa using h

theorem decodeParts_ok_length : ∀ (parts : List (List Char)) (rs : List SendResponse),
    decodeParts parts = .ok rs → rs.length = parts.length := by
  intro parts
  induction parts with
  | nil =>
    intro rs h
    simp [decodeParts] at h
    simp [← h]
  | cons p ps ih =>
    intro rs h
    simp only [decodeParts] at h
    cases hn : newSendResponse p with
    | error e => rw [hn] at h; simp at h
    | ok sr =>
      rw [hn] at h
      cases hd : decodeParts ps with
      | error e => rw [hd] at h; simp at h
      | ok rs' =>
        rw [hd] at h
        simp at h
        simp [← h, ih rs' hd]

theorem decodeParts_ok_get : ∀ (parts : List (List Char)) (rs : List SendResponse),
    decodeParts parts = .ok rs →
    ∀ i (hi : i < parts.length) (hi' : i < rs.length),
      newSendResponse (parts.get ⟨i, hi⟩) = .ok (rs.get ⟨i, hi'⟩) := by
  intro parts
  induction parts with
  | nil => intro rs h i hi; simp at hi
  | cons p ps ih =>
    intro rs h i hi hi'
    simp only [decodeParts] at h
    cases hn : newSendResponse p with
    | error e => rw [hn] at h; simp at h
    | ok sr =>
      rw [hn] at h
      cases hd : decodeParts ps with
      | error e => rw [hd] at h; simp at h
      | ok rs' =>
        rw [hd] at h
        simp at h
        subst h
        cases i with
        | zero => simpa using hn
        | succ j =>
          have hj : j < ps.length := by simpa using hi
          have hj' : j < rs'.length := by simpa using hi'
          simpa using ih rs' hd j hj hj'

theorem decodeParts_error_of_mem : ∀ (parts : List (List Char)) (p : List Char) (e : FcmError),
    p ∈ parts → newSendResponse p = .error e →
    ∃ e', decodeParts parts = .error e' := by
  intro parts
  induction parts with
  | nil => intro p e hp; simp at hp
  | cons q ps ih =>
    intro p e hp he
    rcases List.mem_cons.mp hp with h | h
    · subst h
      exact ⟨e, by simp [decodeParts, he]⟩
    · cases hn : newSendResponse q with
      | error e2 => exact ⟨e2, by simp [decodeParts, hn]⟩
      | ok sr =>
        obtain ⟨e', he'⟩ := ih p e h he
        exact ⟨e', by simp [decodeParts, hn, he']⟩

theorem decodeParts_error_src : ∀ (parts : List (List Char)) (e : FcmError),
    decodeParts parts = .error e →
    ∃ p, p ∈ parts ∧ newSendResponse p = .error e := by
  intro parts
  induction parts with
  | nil => intro e h; simp [decodeParts] at h
  | cons q ps ih =>
    intro e h
    simp only [decodeParts] at h
    cases hn : newSendResponse q with
    | error e2 =>
      rw [hn] at h
      simp at h
      exact ⟨q, by simp, by rw [hn, h]⟩
    | ok sr =>
      rw [hn] at h
      cases hd : decodeParts ps with
      | error e2 =>
        rw [hd] at h
        simp at h
        obtain ⟨p, hp, hp2⟩ := ih e2 hd
        exact ⟨p, by simp [hp], by rw [hp2, h]⟩
      | ok rs => rw [hd] at h; simp at h

theorem newSendResponse_error_simple (p : List Char) (e : FcmError) :
    newSendResponse p = .error e → ∃ m, e = .simple m := by
  intro h
  unfold newSendResponse at h
  cases hr : readResponse p with
  | error e2 =>
    rw [hr] at h
    simp at h
    exact ⟨"error parsing multipart body: " ++ e2, h.symm⟩
  | ok resp =>
    rw [hr] at h
    by_cases hs : resp.statusCode = 200
    · simp [hs] at h
      cases hj : jsonFcmName resp.body with
      | error e3 =>
        rw [hj] at h
        simp at h
        exact ⟨e3, h.symm⟩
      | ok nm => rw [hj] at h; simp at h
    · simp [hs] at h

/-- C1: whenever the batch call returns a BatchResult and the service
honors the documented contract of answering one embedded response per
input message in input order, `successCount + failureCount` equals the
number of outcomes, which equals the number of input messages;
`successCount` counts exactly the `Success` outcomes; and the i-th
outcome is decoded from the i-th response part (outcome order matches
input order). -/
theorem batch_result_invariant (c : ClientCfg) (messages : List Message) (dryRun : Bool)
    (req : Request) (tr : List Event) (resp : Response) (mt : String)
    (ps : List (String × String)) (parts : List (List Char)) (rs : List SendResponse)
    (h1 : 1 ≤ messages.length) (h2 : messages.length ≤ maxMessages)
    (hreq : newBatchRequest c messages dryRun = (.ok req, tr))
    (hresp : c.transport req = .ok resp) (h200 : resp.statusCode = 200)
    (hmt : parseMediaType (resp.getHeader "Content-Type") = .ok (mt, ps))
    (hparts : parseMultipart (lookupParam ps "boundary") resp.body = .ok parts)
    (hlen : parts.length = messages.length)
    (hrs : decodeParts parts = .ok rs) :
    sendBatch c messages dryRun =
      (.ok { SuccessCount := rs.countP (fun sr => sr.Success),
             FailureCount := rs.length - rs.countP (fun sr => sr.Success),
             Responses := rs }, tr ++ [Event.transportCall]) ∧
    rs.length = messages.length ∧
    rs.countP (fun sr => sr.Success) = (rs.filter (fun sr => sr.Success)).length ∧
    rs.countP (fun sr => sr.Success) +
      (rs.length - rs.countP (fun sr => sr.Success)) = messages.length ∧
    (∀ i (hi : i < parts.length) (hi' : i < rs.length),
      newSendResponse (parts.get ⟨i, hi⟩) = .ok (rs.get ⟨i, hi'⟩)) := by
  have h0 : ¬ messages.length = 0 := by omega
  have h5 : ¬ messages.length > maxMessages := by omega
  have hnb : newBatchResponse resp =
      .ok { SuccessCount := rs.countP (fun sr => sr.Success),
            FailureCount := rs.length - rs.countP (fun sr => sr.Success),
            Responses := rs } := by
    simp [newBatchResponse, hmt, hparts, hrs]
  have hlen' : rs.length = messages.length := by
    rw [decodeParts_ok_length parts rs hrs, hlen]
  have hcnt : rs.countP (fun sr => sr.Success) ≤ rs.length :=
    List.countP_le_length _
  refine ⟨?_, hlen', List.countP_eq_length_filter _ _, by omega,
    decodeParts_ok_get parts rs hrs⟩
  simp [sendBatch, h0, h5, sendBatchChecked, hreq, hresp, h200, hnb]

/-- Witness for `batch_result_invariant` on the concrete one-message
exchange. -/
theorem batch_result_invariant_witness :
    sendBatch testCfg [testMessage "t1"] false =
      (.ok { SuccessCount := [SendResponse.mk true "n1" 0 ""].countP (fun sr => sr.Success),
             FailureCount := 1 - [SendResponse.mk true "n1" 0 ""].countP (fun sr => sr.Success),
             Responses := [SendResponse.mk true "n1" 0 ""] },
       [Event.builtOuterRequest, Event.tokenCall, Event.transportCall]) ∧
    [SendResponse.mk true "n1" 0 ""].countP (fun sr => sr.Success) +
      (1 - [SendResponse.mk true "n1" 0 ""].countP (fun sr => sr.Success)) =
      ([testMessage "t1"] : List Message).length := by
  have h := batch_result_invariant testCfg [testMessage "t1"] false testOuterRequest
    [Event.builtOuterRequest, Event.tokenCall] testResponse "multipart/mixed"
    [("boundary", "BNDRY")] ["HTTP/1.1 200 OK\r\n\r\n\x7b\"name\":\"n1\"\x7d".data]
    [SendResponse.mk true "n1" 0 ""]
    (by decide) (by decide) (by rfl) (by rfl) (by rfl) (by rfl) (by rfl) (by rfl) (by rfl)
  refine ⟨?_, ?_⟩
  · have hx := h.1
    simp at hx
    exact hx
  · exact h.2.2.2.1

/-- C3: the multipart response decode is all-or-nothing: a failing
media-type parse, a missing (hence empty) boundary parameter, or any
embedded part that fails to decode makes the whole decode fail with a
`ProtocolError`-style plain error, producing no partial BatchResult. -/
theorem decode_all_or_nothing (resp : Response) :
    ((∃ e, parseMediaType (resp.getHeader "Content-Type") = .error e) ∨
     (∃ mt ps, parseMediaType (resp.getHeader "Content-Type") = .ok (mt, ps) ∧
        lookupParam ps "boundary" = "") ∨
     (∃ mt ps parts, parseMediaType (resp.getHeader "Content-Type") = .ok (mt, ps) ∧
        parseMultipart (lookupParam ps "boundary") resp.body = .ok parts ∧
        ∃ p, p ∈ parts ∧ ∃ e, newSendResponse p = .error e)) →
    ∃ msg, newBatchResponse resp = .error (.simple msg) := by
  intro h
  rcases h with ⟨e, he⟩ | ⟨mt, ps, hok, hb⟩ | ⟨mt, ps, parts, hok, hparts, p, hp, e, he⟩
  · exact ⟨"error parsing content-type header: " ++ e, by simp [newBatchResponse, he]⟩
  · exact ⟨"multipart: boundary is empty",
      by simp [newBatchResponse, hok, hb, parseMultipart]⟩
  · obtain ⟨e', he'⟩ := decodeParts_error_of_mem parts p e hp he
    obtain ⟨q, hq, hq2⟩ := decodeParts_error_src parts e' he'
    obtain ⟨m, hm⟩ := newSendResponse_error_simple q e' hq2
    subst hm
    exact ⟨m, by simp [newBatchResponse, hok, hparts, he']⟩

/-- The 200 outer response whose `Content-Type` carries no boundary
parameter. -/
def noBoundaryResponse : Response :=
  { testResponse with headers := [("Content-Type", "multipart/mixed")] }

/-- Witness for `decode_all_or_nothing`: the missing-boundary case on an
otherwise-200 response. -/
theorem decode_all_or_nothing_witness :
    ∃ msg, newBatchResponse noBoundaryResponse = .error (.simple msg) :=
  decode_all_or_nothing noBoundaryResponse
    (Or.inr (Or.inl ⟨"multipart/mixed", [], rfl, rfl⟩))

/-- The synthetic multipart response of the spec's decode example: a 200
part naming `projects/p/messages/123` and a 404 part with body
`not found`. -/
def syntheticBody : String :=
  "--BNDRY\r\nContent-Type: application/http\r\n\r\nHTTP/1.1 200 OK\r\n\r\n\x7b\"name\":\"projects/p/messages/123\"\x7d\r\n--BNDRY\r\nContent-Type: application/http\r\n\r\nHTTP/1.1 404 Not Found\r\n\r\nnot found\r\n--BNDRY--\r\n"

/-- The synthetic outer response carrying `syntheticBody`. -/
def syntheticResponse : Response :=
  { statusCode := 200, status := "200 OK"
    headers := [("Content-Type", "multipart/mixed; boundary=BNDRY")]
    body := syntheticBody.data }

/-- C4 counterexample: decoding the synthetic response yields a first
outcome whose messageID is the full name `projects/p/messages/123` — the
batch decoder stores `name` verbatim and does not strip it to `123`, so
the claimed outcome list `[Success{"123"}, Failure{404,"not found"}]` is
not produced. -/
theorem synthetic_decode_full_name :
    newBatchResponse syntheticResponse =
      .ok { SuccessCount := 1, FailureCount := 1,
            Responses := [{ Success := true, MessageID := "projects/p/messages/123" },
                          { Success := false, ErrorCode := 404, ErrorBody := "not found" }] } ∧
    ¬ newBatchResponse syntheticResponse =
      .ok { SuccessCount := 1, FailureCount := 1,
            Responses := [{ Success := true, MessageID := "123" },
                          { Success := false, ErrorCode := 404, ErrorBody := "not found" }] } := by
  have hA : newBatchResponse syntheticResponse =
      .ok { SuccessCount := 1, FailureCount := 1,
            Responses := [{ Success := true, MessageID := "projects/p/messages/123" },
                          { Success := false, ErrorCode := 404, ErrorBody := "not found" }] } := rfl
  refine ⟨hA, ?_⟩
  intro hB
  rw [hA] at hB
  simp at hB

/-- C4 amended: for every embedded part that parses as an HTTP response,
a non-200 status yields `Failure{status, raw body}` and a 200 status with
decodable JSON yields `Success{messageID := name}` (the name verbatim);
decoding the synthetic two-part response yields successCount 1,
failureCount 1, and outcomes `[Success{"projects/p/messages/123"},
Failure{404, "not found"}]` in that order. -/
theorem embedded_part_outcomes :
    (∀ (content : List Char) (hr : RawResponse), readResponse content = .ok hr →
      (hr.statusCode ≠ 200 →
        newSendResponse content =
          .ok { Success := false, ErrorCode := hr.statusCode,
                ErrorBody := String.mk hr.body }) ∧
      (∀ name, hr.statusCode = 200 → jsonFcmName hr.body = .ok name →
        newSendResponse content = .ok { Success := true, MessageID := name })) ∧
    newBatchResponse syntheticResponse =
      .ok { SuccessCount := 1, FailureCount := 1,
            Responses := [{ Success := true, MessageID := "projects/p/messages/123" },
                          { Success := false, ErrorCode := 404, ErrorBody := "not found" }] } := by
  constructor
  · intro content hr h
    constructor
    · intro hne
      simp [newSendResponse, h, hne]
    · intro name h200 hj
      simp [newSendResponse, h, h200, hj]
  · rfl

/-- Witness for `embedded_part_outcomes` at a concrete 404 part. -/
theorem embedded_part_outcomes_witness :
    newSendResponse "HTTP/1.1 404 Not Found\r\n\r\nnot found".data =
      .ok { Success := false, ErrorCode := 404, ErrorBody := "not found" } := by
  have h := (embedded_part_outcomes.1 "HTTP/1.1 404 Not Found\r\n\r\nnot found".data
    ⟨404, [], "not found".data⟩ (by rfl)).1 (by decide)
  exact h

theorem mimeParts_length (e : multipartEntity) :
    e.mimeParts.length = e.parts.length := by
  simp [multipartEntity.mimeParts]

/-- C8: the built multipart body uses the fixed boundary
`__END_OF_PART__`, and the MIME part created for the i-th batch item
carries exactly the headers `Content-Length` (the byte length of that
part's encoded HTTP message), `Content-Type: application/http`,
`Content-Id: i+1` (1-indexed, strictly increasing in input order), and
`Content-Transfer-Encoding: binary`, with the encoded item as its
content. -/
theorem multipart_envelope_spec (e : multipartEntity) :
    multipartBoundary = "__END_OF_PART__" ∧
    e.Bytes = serializeMultipart multipartBoundary e.mimeParts ∧
    e.Mime = "multipart/mixed; boundary=__END_OF_PART__" ∧
    ∀ i (hi : i < e.parts.length),
      e.mimeParts.get ⟨i, by rw [mimeParts_length]; exact hi⟩ =
        { header := [("Content-Length", natStr (e.parts.get ⟨i, hi⟩).bytes.length),
                     ("Content-Type", "application/http"),
                     ("Content-Id", natStr (i + 1)),
                     ("Content-Transfer-Encoding", "binary")]
          content := (e.parts.get ⟨i, hi⟩).bytes } := by
  refine ⟨rfl, rfl, rfl, ?_⟩
  intro i hi
  simp [multipartEntity.mimeParts, part.writeTo, List.get_eq_getElem,
    List.getElem_map, List.getElem_enum]

/-- Witness for `multipart_envelope_spec` at the second part of a
concrete two-part entity. -/
theorem multipart_envelope_spec_witness :
    (multipartEntity.mk [testPart, testPart]).mimeParts.get
        ⟨1, by rw [mimeParts_length]; decide⟩ =
      { header := [("Content-Length",
                    natStr ((multipartEntity.mk [testPart, testPart]).parts.get
                      ⟨1, by decide⟩).bytes.length),
                   ("Content-Type", "application/http"),
                   ("Content-Id", natStr 2),
                   ("Content-Transfer-Encoding", "binary")]
        content := ((multipartEntity.mk [testPart, testPart]).parts.get
          ⟨1, by decide⟩).bytes } :=
  (multipart_envelope_spec ⟨[testPart, testPart]⟩).2.2.2 1 (by decide)

/-- A parsed raw HTTP/1.1 request, as a standard HTTP message parser
recovers it from a byte stream: request line (method, request-target,
protocol), header fields, and a body delimited by `Content-Length`. -/
structure RawRequest where
  method : List Char
  target : List Char
  proto : List Char
  headers : List (List Char × List Char)
  body : List Char
deriving DecidableEq, Repr

/-- Parse a raw HTTP/1.1 request byte stream: `method SP target SP proto`
request line, header fields up to the blank line, then a body of
`Content-Length` bytes (or the whole remainder when that header is
absent). -/
def readRequest (bs : List Char) : Option RawRequest :=
  match takeLine bs with
  | none => none
  | some (rline, rest) =>
    let method := rline.takeWhile (fun c => c ≠ ' ')
    match rline.dropWhile (fun c => c ≠ ' ') with
    | ' ' :: rest1 =>
      let target := rest1.takeWhile (fun c => c ≠ ' ')
      match rest1.dropWhile (fun c => c ≠ ' ') with
      | ' ' :: proto =>
        match parseHeaderSection rest with
        | none => none
        | some (hdrs, rest2) =>
          match lookupHdr hdrs "Content-Length".data with
          | none => some ⟨method, target, proto, hdrs, rest2⟩
          | some clv =>
            match parseNat clv with
            | none => none
            | some n =>
              if n ≤ rest2.length then some ⟨method, target, proto, hdrs, rest2.take n⟩
              else none
      | _ => none
    | _ => none

theorem takeLine_append (l rest : List Char) (hl : '\r' ∉ l) :
    takeLine (l ++ '\r' :: '\n' :: rest) = some (l, rest) := by
  induction l with
  | nil => simp [takeLine]
  | cons c cs ih =>
    have hc : ¬ c = '\r' := fun h => hl (by simp [h])
    have ih' := ih (fun h => hl (by simp [h]))
    simp only [List.cons_append, takeLine]
    rw [if_neg (by simp [hc])]
    simp [List.append_eq, ih']

theorem takeWhile_append_stop (p : Char → Bool) :
    ∀ (xs : List Char) (y : Char) (ys : List Char),
      (∀ c ∈ xs, p c = true) → p y = false →
      (xs ++ y :: ys).takeWhile p = xs ∧ (xs ++ y :: ys).dropWhile p = y :: ys := by
  intro xs
  induction xs with
  | nil =>
    intro y ys hxs hy
    simp [List.takeWhile, List.dropWhile, hy]
  | cons c cs ih =>
    intro y ys hxs hy
    have hc : p c = true := hxs c (by simp)
    obtain ⟨h1, h2⟩ := ih y ys (fun d hd => hxs d (by simp [hd])) hy
    simp [List.takeWhile_cons, List.dropWhile_cons, hc, h1, h2]

theorem dropWhile_space_of_head (v : List Char) (hv : v.head? ≠ some ' ') :
    v.dropWhile (fun c => c = ' ') = v := by
  cases v with
  | nil => rfl
  | cons c cs =>
    have hc : ¬ c = ' ' := fun h => hv (by simp [h])
    simp [List.dropWhile_cons, hc]

/-- Render raw header fields as `key: value` CRLF lines. -/
def renderKV (hs : List (List Char × List Char)) : List Char :=
  (hs.map (fun kv => kv.1 ++ ':' :: ' ' :: kv.2 ++ crlf)).flatten

/-- Cleanliness conditions under which a rendered header field parses
back to itself. -/
def goodKV (kv : List Char × List Char) : Prop :=
  kv.1 ≠ [] ∧ ':' ∉ kv.1 ∧ '\r' ∉ kv.1 ∧ '\r' ∉ kv.2 ∧ kv.2.head? ≠ some ' '

theorem parseHeaderLine_inv (k v : List Char) (h : goodKV (k, v)) :
    parseHeaderLine (k ++ ':' :: ' ' :: v) = some (k, v) := by
  obtain ⟨h1, h2, h3, h4, h5⟩ := h
  have hk : ∀ c ∈ k, (fun c => decide (c ≠ ':')) c = true := by
    intro c hc
    simp only [decide_eq_true_eq]
    exact fun he => h2 (he ▸ hc)
  obtain ⟨ht, hd⟩ := takeWhile_append_stop (fun c => decide (c ≠ ':')) k ':' (' ' :: v)
    hk (by simp)
  simp only [parseHeaderLine, ht, hd]
  simp [List.dropWhile_cons, dropWhile_space_of_head v h5]

theorem parseHeaderSectionCore_inv :
    ∀ (hs : List (List Char × List Char)) (fuel : Nat) (rest : List Char),
      hs.length < fuel → (∀ kv ∈ hs, goodKV kv) →
      parseHeaderSectionCore fuel (renderKV hs ++ crlf ++ rest) = some (hs, rest) := by
  intro hs
  induction hs with
  | nil =>
    intro fuel rest hf hg
    cases fuel with
    | zero => omega
    | succ f =>
      simp only [renderKV, List.map_nil, List.flatten_nil, List.nil_append, crlf]
      simp [parseHeaderSectionCore, takeLine]
  | cons kv hs ih =>
    intro fuel rest hf hgood
    cases fuel with
    | zero => omega
    | succ f =>
      obtain ⟨k, v⟩ := kv
      obtain ⟨h1, h2, h3, h4, h5⟩ := hgood (k, v) (by simp)
      have hnr : '\r' ∉ (k ++ ':' :: ' ' :: v) := by
        intro hmem
        rcases List.mem_append.mp hmem with h | h
        · exact h3 h
        · rcases List.mem_cons.mp h with h | h
          · exact absurd h (by decide)
          · rcases List.mem_cons.mp h with h | h
            · exact absurd h (by decide)
            · exact h4 h
      have htl := takeLine_append (k ++ ':' :: ' ' :: v)
        (renderKV hs ++ crlf ++ rest) hnr
      have hshape : renderKV ((k, v) :: hs) ++ crlf ++ rest =
          (k ++ ':' :: ' ' :: v) ++ '\r' :: '\n' :: (renderKV hs ++ crlf ++ rest) := by
        simp [renderKV, crlf, List.append_assoc]
      rw [hshape]
      simp only [parseHeaderSectionCore, htl]
      rw [if_neg (by simp [h1])]
      rw [parseHeaderLine_inv k v ⟨h1, h2, h3, h4, h5⟩]
      have hrec := ih f rest (by simpa using hf)
        (fun kv hkv => hgood kv (by simp [hkv]))
      rw [hrec]
      rfl

theorem head_ne_of_not_mem (v : List Char) (c : Char) (h : c ∉ v) :
    v.head? ≠ some c := by
  cases v with
  | nil => simp
  | cons d ds =>
    simp only [List.head?_cons, ne_eq, Option.some.injEq]
    intro he
    exact h (by simp [← he])

theorem natChars_clean (n : Nat) :
    '\r' ∉ natChars n ∧ (natChars n).head? ≠ some ' ' := by
  obtain ⟨h1, h2, _⟩ := natCharsCore_spec (n + 1) n (by omega)
  rw [List.all_eq_true] at h2
  constructor
  · intro hmem
    have := h2 '\r' hmem
    simp at this
  · apply head_ne_of_not_mem
    intro hmem
    have := h2 ' ' hmem
    simp at this

/-- C9: encoding a batch item with the part encoder and parsing the
resulting byte sequence as a raw HTTP/1.1 request recovers the original
method, the original URL (split into its `Host` header and request
target), the original headers (canonicalized, alongside the fixed wire
headers the encoder adds), and the JSON body byte-for-byte. -/
theorem part_bytes_roundtrip (host path0 : List Char) (b : fcmRequest)
    (hh2 : '/' ∉ host) (hh3 : '\r' ∉ host) (hh4 : ' ' ∉ host)
    (hp2 : '\r' ∉ path0) (hp3 : ' ' ∉ path0) :
    readRequest (part.bytes
      { method := "POST", url := String.mk ("https://".data ++ (host ++ '/' :: path0)),
        headers := [(apiFormatVersionHeader, apiFormatVersion)], body := b }) =
      some { method := "POST".data, target := '/' :: path0, proto := "HTTP/1.1".data,
             headers := [("Host".data, host),
                         ("Content-Length".data, natChars (marshalFcmRequest b).length),
                         ("Content-Type".data, "application/json; charset=UTF-8".data),
                         ("X-Goog-Api-Format-Version".data, "2".data)],
             body := marshalFcmRequest b } := by
  have hsplit : splitUrl (String.mk ("https://".data ++ (host ++ '/' :: path0))) =
      (host, '/' :: path0) := by
    obtain ⟨ht, hd⟩ := takeWhile_append_stop (fun c => decide (c ≠ '/')) host '/' path0
      (by
        intro c hc
        simp only [decide_eq_true_eq]
        exact fun he => hh2 (he ▸ hc))
      (by decide)
    simp only [splitUrl]
    rw [show afterSchemeCore (['h', 't', 't', 'p', 's', ':', '/', '/'] ++
        (host ++ '/' :: path0)) = some (host ++ '/' :: path0) from rfl]
    have ht' := ht
    have hd' := hd
    simp only [ne_eq, decide_not] at ht' hd'
    simp [ht, hd, ht', hd']
  have hbytes : part.bytes
      { method := "POST", url := String.mk ("https://".data ++ (host ++ '/' :: path0)),
        headers := [(apiFormatVersionHeader, apiFormatVersion)], body := b } =
      ("POST".data ++ ' ' :: (('/' :: path0) ++ ' ' :: "HTTP/1.1".data)) ++ '\r' :: '\n' ::
        (renderKV [("Host".data, host),
                   ("Content-Length".data, natChars (marshalFcmRequest b).length),
                   ("Content-Type".data, "application/json; charset=UTF-8".data),
                   ("X-Goog-Api-Format-Version".data, "2".data)] ++ crlf ++
         marshalFcmRequest b) := by
    simp only [part.bytes]
    rw [hsplit]
    rw [show lookupHeader (setHeader (setHeader (List.foldl
        (fun acc kv => setHeader acc kv.1 kv.2) []
        [(apiFormatVersionHeader, apiFormatVersion)])
        "Content-Type" "application/json; charset=UTF-8") "User-Agent" "")
        "User-Agent" = some "" from rfl]
    rw [show renderHeaderLines (sortByKey (List.filter
        (fun kv => ¬ reqWriteExclude.contains kv.1)
        (setHeader (setHeader (List.foldl
          (fun acc kv => setHeader acc kv.1 kv.2) []
          [(apiFormatVersionHeader, apiFormatVersion)])
          "Content-Type" "application/json; charset=UTF-8") "User-Agent" ""))) =
        "Content-Type: application/json; charset=UTF-8\r\nX-Goog-Api-Format-Version: 2\r\n".data
        from rfl]
    simp [renderKV, crlf, List.append_assoc]
  rw [hbytes]
  have hrlnr : '\r' ∉ ("POST".data ++ ' ' :: (('/' :: path0) ++ ' ' :: "HTTP/1.1".data)) := by
    intro hmem
    rcases List.mem_append.mp hmem with h | h
    · exact absurd h (by decide)
    · rcases List.mem_cons.mp h with h | h
      · exact absurd h (by decide)
      · rcases List.mem_append.mp h with h | h
        · rcases List.mem_cons.mp h with h | h
          · exact absurd h (by decide)
          · exact hp2 h
        · rcases List.mem_cons.mp h with h | h
          · exact absurd h (by decide)
          · exact absurd h (by decide)
  have htl := takeLine_append
    ("POST".data ++ ' ' :: (('/' :: path0) ++ ' ' :: "HTTP/1.1".data))
    (renderKV [("Host".data, host),
               ("Content-Length".data, natChars (marshalFcmRequest b).length),
               ("Content-Type".data, "application/json; charset=UTF-8".data),
               ("X-Goog-Api-Format-Version".data, "2".data)] ++ crlf ++
     marshalFcmRequest b) hrlnr
  obtain ⟨htw1, hdw1⟩ := takeWhile_append_stop (fun c => decide (c ≠ ' '))
    "POST".data ' ' (('/' :: path0) ++ ' ' :: "HTTP/1.1".data) (by decide) (by decide)
  obtain ⟨htw2, hdw2⟩ := takeWhile_append_stop (fun c => decide (c ≠ ' '))
    ('/' :: path0) ' ' "HTTP/1.1".data
    (by
      intro c hc
      simp only [decide_eq_true_eq]
      rcases List.mem_cons.mp hc with h | h
      · subst h; decide
      · exact fun he => hp3 (he ▸ h))
    (by decide)
  have hgood : ∀ kv ∈ [("Host".data, host),
      ("Content-Length".data, natChars (marshalFcmRequest b).length),
      ("Content-Type".data, "application/json; charset=UTF-8".data),
      ("X-Goog-Api-Format-Version".data, "2".data)], goodKV kv := by
    intro kv hkv
    obtain ⟨hnc1, hnc2⟩ := natChars_clean (marshalFcmRequest b).length
    rcases List.mem_cons.mp hkv with h | h
    · subst h
      simp only [goodKV]
      exact ⟨by decide, by decide, by decide, hh3, head_ne_of_not_mem host ' ' hh4⟩
    · rcases List.mem_cons.mp h with h | h
      · subst h
        simp only [goodKV]
        exact ⟨by decide, by decide, by decide, hnc1, hnc2⟩
      · rcases List.mem_cons.mp h with h | h
        · subst h
          simp only [goodKV]
          refine ⟨by decide, by decide, by decide, by decide, by decide⟩
        · rcases List.mem_cons.mp h with h | h
          · subst h
            simp only [goodKV]
            refine ⟨by decide, by decide, by decide, by decide, by decide⟩
          · simp at h
  have hlen4 : ([("Host".data, host),
      ("Content-Length".data, natChars (marshalFcmRequest b).length),
      ("Content-Type".data, "application/json; charset=UTF-8".data),
      ("X-Goog-Api-Format-Version".data, "2".data)] :
        List (List Char × List Char)).length <
      (renderKV [("Host".data, host),
        ("Content-Length".data, natChars (marshalFcmRequest b).length),
        ("Content-Type".data, "application/json; charset=UTF-8".data),
        ("X-Goog-Api-Format-Version".data, "2".data)] ++ crlf ++
       marshalFcmRequest b).length + 1 := by
    simp [renderKV, crlf]
  have hsec := parseHeaderSectionCore_inv
    [("Host".data, host),
     ("Content-Length".data, natChars (marshalFcmRequest b).length),
     ("Content-Type".data, "application/json; charset=UTF-8".data),
     ("X-Goog-Api-Format-Version".data, "2".data)]
    ((renderKV [("Host".data, host),
       ("Content-Length".data, natChars (marshalFcmRequest b).length),
       ("Content-Type".data, "application/json; charset=UTF-8".data),
       ("X-Goog-Api-Format-Version".data, "2".data)] ++ crlf ++
      marshalFcmRequest b).length + 1)
    (marshalFcmRequest b) hlen4 hgood
  have hlk : lookupHdr [("Host".data, host),
      ("Content-Length".data, natChars (marshalFcmRequest b).length),
      ("Content-Type".data, "application/json; charset=UTF-8".data),
      ("X-Goog-Api-Format-Version".data, "2".data)] "Content-Length".data =
      some (natChars (marshalFcmRequest b).length) := rfl
  have hpn := parseNat_natChars (marshalFcmRequest b).length
  simp only [readRequest, htl, htw1, hdw1, htw2, hdw2, parseHeaderSection, hsec,
    hlk, hpn, le_refl, if_true, List.take_length]

/-- Witness for `part_bytes_roundtrip` at the concrete FCM send endpoint
and a concrete message body. -/
theorem part_bytes_roundtrip_witness :
    readRequest (part.bytes testPart) =
      some { method := "POST".data, target := "/v1/projects/p/messages:send".data,
             proto := "HTTP/1.1".data,
             headers := [("Host".data, "fcm.googleapis.com".data),
                         ("Content-Length".data,
                          natChars (marshalFcmRequest
                            { ValidateOnly := false,
                              Message := some (testMessage "t1") }).length),
                         ("Content-Type".data, "application/json; charset=UTF-8".data),
                         ("X-Goog-Api-Format-Version".data, "2".data)],
             body := marshalFcmRequest
               { ValidateOnly := false, Message := some (testMessage "t1") } } := by
  have h := part_bytes_roundtrip "fcm.googleapis.com".data
    "v1/projects/p/messages:send".data
    { ValidateOnly := false, Message := some (testMessage "t1") }
    (by decide) (by decide) (by decide) (by decide) (by decide)
  exact h

end GoFcm
